import Mathlib

/-
Verification development for the carno code generator
(src/protoc-gen-go/carno/carno.go).

The generator is embedded shallowly: every emission function of the Go
source becomes a Lean function producing the list of lines it prints
(one list entry per `g.P` call, arguments concatenated, as the
`generator.Generator.P` printer does), together with an optional panic
message.  A Go `panic` aborts the remaining emission, which the
sequencing operator `GenOut.seq` models by discarding everything after
the first error.  `g.gen.PrintComments` emits the source comments
attached to a descriptor; the embedded descriptors carry no attached
comments, so those calls emit nothing.  `strconv.Quote` is modelled for
names without escape-needing characters.
-/

namespace Carno

/-- MethodDescriptorProto: the fields of a method descriptor read by this
generator (`GetName`, `GetInputType`, `GetOutputType`,
`GetClientStreaming`, `GetServerStreaming`). -/
structure MethodDescriptorProto where
  name : String
  inputType : String
  outputType : String
  clientStreaming : Bool
  serverStreaming : Bool
deriving DecidableEq

/-- ServiceDescriptorProto: service name and ordered method list. -/
structure ServiceDescriptorProto where
  name : String
  method : List MethodDescriptorProto
deriving DecidableEq

/-- FileDescriptor: the generator reads only `GetPackage()` and
`.FileDescriptorProto.Service`; `name` and `otherDecls` stand for the
remaining descriptor contents (file name, message types, options, source
info), which `Generate` never reads. -/
structure FileDescriptor where
  name : String
  package : String
  service : List ServiceDescriptorProto
  otherDecls : List String
deriving DecidableEq

/-- carno.go:50 `const generatedCodeVersion = 4`. -/
def generatedCodeVersion : Nat := 4

/-- carno.go:128 `reservedClientName`: the map literal is empty. -/
def reservedClientName : List String := []

/-- strconv.Quote for strings without escape-needing characters. -/
def quoteStr (s : String) : String := "\"" ++ s ++ "\""

/-- Modelled from the spec: `generator.CamelCase` is not under src/; the
spec (section 4.1 NameResolver) describes the exported form as
leading-uppercase word-boundary-aware casing: the first letter and each
letter following an underscore are uppercased and interior underscores
are dropped.  The Bool argument is true at a word boundary. -/
def camelCaseChars : Bool → List Char → List Char
  | _, [] => []
  | b, c :: rest =>
    if c = '_' then camelCaseChars true rest
    else if b then c.toUpper :: camelCaseChars false rest
    else c :: camelCaseChars false rest

/-- Modelled from the spec: see `camelCaseChars`. -/
def camelCase (s : String) : String := String.mk (camelCaseChars true s.data)

/-- Panic message of a Go out-of-range slice, raised by `unexport` on "". -/
def sliceErrMsg : String := "runtime error: slice bounds out of range"

/-- carno.go:132 `func unexport(s string) string`: lowercases the first
character (`strings.ToLower(s[:1]) + s[1:]`); `s[:1]` panics when `s` is
empty, modelled as `none`. -/
def unexport (s : String) : Option String :=
  match s.data with
  | [] => none
  | c :: cs => some (String.mk (c.toLower :: cs))

/-- Output of a run of the generator: the emitted lines, and the panic
message if the run panicked partway. -/
structure GenOut where
  lines : List String
  err : Option String
deriving DecidableEq

/-- Sequential composition: a panic aborts everything that follows. -/
def GenOut.seq (a b : GenOut) : GenOut :=
  match a.err with
  | some _ => a
  | none => ⟨a.lines ++ b.lines, b.err⟩

/-- A block of successful `g.P` calls. -/
def emitAll (ls : List String) : GenOut := ⟨ls, none⟩

/-- A Go panic: no lines, an error. -/
def failGen (msg : String) : GenOut := ⟨[], some msg⟩

/-- carno.go:219-235 `generateClientSignature`. -/
def generateClientSignature (tn : String → String) (servName : String)
    (m : MethodDescriptorProto) : String :=
  let methName0 := camelCase m.name
  let methName := if reservedClientName.contains methName0 then methName0 ++ "_" else methName0
  let reqArg := if m.clientStreaming then "" else ", in *" ++ tn m.inputType
  let respName := if m.serverStreaming || m.clientStreaming then
      servName ++ "_" ++ camelCase m.name ++ "Client"
    else "*" ++ tn m.outputType
  methName ++ "(ctx context.Context" ++ reqArg ++ ", opts ...options.Option) (" ++
    respName ++ ", error)"

/-- carno.go:266-279 `generateServerSignature`. -/
def generateServerSignature (tn : String → String) (servName : String)
    (m : MethodDescriptorProto) : String :=
  let methName0 := camelCase m.name
  let methName := if reservedClientName.contains methName0 then methName0 ++ "_" else methName0
  methName ++ "(" ++
    String.intercalate ", " ["context.Context", "*" ++ tn m.inputType] ++ ") " ++
    ("(*" ++ tn m.outputType ++ ", error)")

/-- carno.go:237-263 `generateClientMethod`; `servName` receives the raw
(original) service name at the call site (carno.go:180), and `pkgName`,
`fullServName`, `descExpr` are passed but never used in the body. -/
def generateClientMethod (tn : String → String)
    (pkgName servName fullServName serviceDescVar : String)
    (m : MethodDescriptorProto) (descExpr : String) : GenOut :=
  let outType := tn m.outputType
  match unexport servName with
  | none => failGen sliceErrMsg
  | some u =>
    emitAll [
      "func (c *" ++ u ++ "Client) " ++ generateClientSignature tn servName m ++ "\x7b",
      "inBytes, err := proto.Marshal(in)",
      "if err != nil\x7b",
      "return nil, err",
      "\x7d",
      "resp, err := c.Client.Invoke(ctx, " ++ quoteStr servName ++ ", " ++
        quoteStr m.name ++ ", opts, inBytes)",
      "if err!=nil\x7b",
      "return nil,err",
      "\x7d",
      "out := new(" ++ outType ++ ")",
      "if err := proto.Unmarshal(resp, out); err != nil \x7b",
      "return nil, err",
      "\x7d",
      "return out, nil",
      "\x7d",
      ""]

/-- carno.go:174-181: the client-method loop; `methodIndex` increments
once per method and feeds the (unused) `descExpr` argument. -/
def clientMethodsLoop (tn : String → String)
    (pkgName origServName fullServName serviceDescVar : String)
    (idx : Nat) : List MethodDescriptorProto → GenOut
  | [] => emitAll []
  | m :: rest =>
    (generateClientMethod tn pkgName origServName fullServName serviceDescVar m
        ("&" ++ serviceDescVar ++ ".Methods[" ++ toString idx ++ "]")).seq
      (clientMethodsLoop tn pkgName origServName fullServName serviceDescVar (idx + 1) rest)

/-- carno.go:207-212: the `Methods` slice of the service descriptor
value; a method with either streaming flag set is skipped (`continue`). -/
def serviceDescMethodLines : List MethodDescriptorProto → List String
  | [] => []
  | m :: rest =>
    if m.serverStreaming || m.clientStreaming then serviceDescMethodLines rest
    else (quoteStr m.name ++ ",") :: serviceDescMethodLines rest

/-- carno.go:281-286 `generateServerSetting`: panics on empty package. -/
def generateServerSetting (file : FileDescriptor) : GenOut :=
  if file.package = "" then failGen "empty package" else emitAll []

/-- carno.go:146-156: the client interface block of `generateService`. -/
def clientInterfaceBlock (tn : String → String) (servName : String)
    (ms : List MethodDescriptorProto) : List String :=
  ["",
    "// Client API for " ++ servName ++ " service",
    "type " ++ servName ++ "Client interface \x7b"]
  ++ ms.map (generateClientSignature tn servName)
  ++ ["\x7d", ""]

/-- carno.go:158-172: the client struct and `New<S>Client` factory block
of `generateService`; `u` is `unexport(servName)`. -/
def clientStructFactoryBlock (pkg servName u : String) : List String :=
  ["type " ++ u ++ "Client struct \x7b",
    "*client.Client",
    "\x7d",
    "",
    "func New" ++ servName ++ "Client (opts *options.Options) (" ++ servName ++
      "Client, error) \x7b",
    "c, err := client.NewClient(opts," ++ quoteStr pkg ++ ")",
    "if err != nil \x7breturn nil, err\x7d",
    "rv := &" ++ u ++ "Client\x7bClient: c\x7d",
    "return rv, nil",
    "\x7d",
    ""]

/-- carno.go:183-192: the server interface block of `generateService`. -/
def serverInterfaceBlock (tn : String → String) (servName : String)
    (ms : List MethodDescriptorProto) : List String :=
  ["// Server API for " ++ servName ++ " service",
    "type " ++ servName ++ "Server interface \x7b"]
  ++ ms.map (generateServerSignature tn servName)
  ++ ["\x7d", ""]

/-- carno.go:195-201: the server registration function block. -/
def registrationBlock (servName serviceDescVar : String) : List String :=
  ["",
    "func Register" ++ servName ++ "Server(s server.Server, srv " ++ servName ++
      "Server) \x7b",
    "s.RegisterService(&" ++ serviceDescVar ++ ", srv)",
    "\x7d",
    ""]

/-- carno.go:203-215: the static service descriptor block, whose
`Methods` list is `serviceDescMethodLines`. -/
def serviceDescBlock (origServName serviceDescVar : String)
    (ms : List MethodDescriptorProto) : List String :=
  ["var " ++ serviceDescVar ++ " = common.ServiceDescribe \x7b",
    "ServiceName: " ++ quoteStr origServName ++ ",",
    "Methods: []string\x7b"]
  ++ serviceDescMethodLines ms
  ++ ["\x7d,", "\x7d", ""]

/-- carno.go:134-216 `generateService`, in source emission order:
client interface, client struct and factory, client methods, server
interface, `generateServerSetting`, registration, service descriptor.
The `index` parameter only feeds comment paths (no attached comments
here). -/
def generateService (tn : String → String) (file : FileDescriptor)
    (service : ServiceDescriptorProto) (index : Nat) : GenOut :=
  let origServName := service.name
  let fullServName :=
    if file.package ≠ "" then file.package ++ "@" ++ origServName else origServName
  let servName := camelCase origServName
  let serviceDescVar := "_" ++ servName ++ "_serviceDesc"
  (emitAll (clientInterfaceBlock tn servName service.method)).seq
  ((match unexport servName with
    | none => failGen sliceErrMsg
    | some u => emitAll (clientStructFactoryBlock file.package servName u)).seq
  ((clientMethodsLoop tn file.package origServName fullServName serviceDescVar 0
      service.method).seq
  ((emitAll (serverInterfaceBlock tn servName service.method)).seq
  ((generateServerSetting file).seq
  ((emitAll (registrationBlock servName serviceDescVar)).seq
  (emitAll (serviceDescBlock origServName serviceDescVar service.method)))))))

/-- carno.go:319-321: the constructor field loop of the package
aggregate; `unexport` is applied to the raw service name. -/
def constructorFieldLines : List ServiceDescriptorProto → GenOut
  | [] => emitAll []
  | s :: rest =>
    match unexport s.name with
    | none => failGen sliceErrMsg
    | some u =>
      (emitAll [camelCase s.name ++ "Client: &" ++ u ++ "Client\x7bClient:c\x7d,"]).seq
        (constructorFieldLines rest)

/-- carno.go:304: `generator.CamelCase(strings.Replace(pkg, ".", "_", -1))`. -/
def camelCasePkg (pkg : String) : String :=
  camelCase (String.mk (pkg.data.map (fun c => if c = '.' then '_' else c)))

/-- carno.go:305-318: the aggregate struct header, field lines and
constructor prologue, up to and including `return &<Pkg>{`. -/
def aggregateHeadBlock (pkg : String) (services : List ServiceDescriptorProto) : List String :=
  ["type " ++ camelCasePkg pkg ++ " struct\x7b"]
  ++ services.map (fun s => camelCase s.name ++ "Client")
  ++ ["\x7d",
    "",
    "func New" ++ camelCasePkg pkg ++ "(opts *options.Options) (*" ++ camelCasePkg pkg ++
      ",error)\x7b",
    "c, err := client.NewClient(opts," ++ quoteStr pkg ++ ")",
    "if err!=nil\x7b",
    "return nil,err",
    "\x7d",
    "return &" ++ camelCasePkg pkg ++ "\x7b"]

/-- carno.go:303-325 `generateServerPackage`: the per-package umbrella
struct and its constructor. -/
def generateServerPackage (pkg : String) (services : List ServiceDescriptorProto) : GenOut :=
  (emitAll (aggregateHeadBlock pkg services)).seq
  ((constructorFieldLines services).seq
    (emitAll ["\x7d,nil", "\x7d", ""]))

/-- carno.go:103-105: the `for i, service := range ...` loop. -/
def servicesLoop (tn : String → String) (file : FileDescriptor) (idx : Nat) :
    List ServiceDescriptorProto → GenOut
  | [] => emitAll []
  | s :: rest => (generateService tn file s idx).seq (servicesLoop tn file (idx + 1) rest)

/-- carno.go:88-108 `Generate`: nothing for a service-less file,
otherwise header comments, the `ServerName` constant, every service in
order, then `generateServerPackage` for this file's package and this
file's services. -/
def Generate (tn : String → String) (file : FileDescriptor) : GenOut :=
  if file.service = [] then emitAll []
  else
    (emitAll ["// Reference imports to suppress errors if they are not otherwise used.",
      "",
      "// This is a compile-time assertion to ensure that this generated file",
      "// is compatible with the carno package it is being compiled against.",
      "",
      "const ServerName=" ++ quoteStr file.package]).seq
    ((servicesLoop tn file 0 file.service).seq
      (generateServerPackage file.package file.service))

/-- carno.go:111-125 `GenerateImports`. -/
def GenerateImports (file : FileDescriptor) : GenOut :=
  if file.service = [] then emitAll []
  else
    emitAll ["import (",
      quoteStr "carno/client",
      quoteStr "carno/server",
      quoteStr "carno/options",
      quoteStr "carno/common",
      quoteStr "context",
      ")",
      ""]

/-- Modelled from the spec: the host code-generation pipeline (not under
src/) invokes the plugin's `Generate` once per input file, in input
order, producing one output per file. -/
def GenerateRun (tn : String → String) (files : List FileDescriptor) : List GenOut :=
  files.map (Generate tn)

/-- Semantics of the fixed client-method body text emitted by
`generateClientMethod` (carno.go:243-259): marshal the request, invoke
the shared connection, unmarshal the response; each failure is returned
to the caller as-is (`return nil, err`), with no wrapping and no other
check. -/
def clientBodySem (E B Out : Type) (marshal : Except E B) (invoke : B → Except E B)
    (unmarshal : B → Except E Out) : Except E Out :=
  match marshal with
  | .error e => .error e
  | .ok inBytes =>
    match invoke inBytes with
    | .error e => .error e
    | .ok resp => unmarshal resp

/-- Character-list version of `String.startsWith` for substring search. -/
def startsWithChars : List Char → List Char → Bool
  | [], _ => true
  | _ :: _, [] => false
  | a :: as, b :: bs => a == b && startsWithChars as bs

/-- Substring occurrence test on character lists. -/
def containsRun (pat : List Char) : List Char → Bool
  | [] => pat.isEmpty
  | c :: rest => startsWithChars pat (c :: rest) || containsRun pat rest

/-- Identity type-name resolver, standing for `g.typeName` on a file whose
message types print under their own names. -/
def idTn : String → String := fun s => s

/-- Concrete unary method `Say(In) -> Out`. -/
def mSay : MethodDescriptorProto := ⟨"Say", "In", "Out", false, false⟩

/-- Concrete server-streaming method `Watch`. -/
def mWatch : MethodDescriptorProto := ⟨"Watch", "In", "Out", false, true⟩

/-- Concrete client-streaming method `Push`. -/
def mPush : MethodDescriptorProto := ⟨"Push", "In", "Out", true, false⟩

/-- Concrete service with one unary and two streaming methods. -/
def echoService : ServiceDescriptorProto := ⟨"Echo", [mSay, mWatch, mPush]⟩

/-- Concrete one-method service named `Say`. -/
def sayService : ServiceDescriptorProto := ⟨"Say", [mSay]⟩

/-- Concrete one-method service named `User`. -/
def userService : ServiceDescriptorProto := ⟨"User", [mSay]⟩

/-- Concrete input file: package `demo`, one service `Echo`. -/
def demoFile : FileDescriptor := ⟨"a.proto", "demo", [echoService], []⟩

/-- Second concrete input file in the same package `demo`, service `User`. -/
def demoFile2 : FileDescriptor := ⟨"b.proto", "demo", [userService], []⟩

/-- Concrete input file with an empty package name and one service. -/
def emptyPkgFile : FileDescriptor := ⟨"e.proto", "", [sayService], []⟩

/-- Concrete input file with an empty package name, service `User`. -/
def emptyPkgFile2 : FileDescriptor := ⟨"e2.proto", "", [userService], []⟩

/-- Concrete input file declaring a service whose name is empty. -/
def emptyNameFile : FileDescriptor := ⟨"n.proto", "demo", [⟨"", [mSay]⟩], []⟩

/-- Copy of `demoFile` differing only in the descriptor fields that
`Generate` never reads (file name and other declarations). -/
def demoFileAlt : FileDescriptor := ⟨"z.proto", "demo", [echoService], ["MsgDecl"]⟩

theorem emitAll_seq_emitAll (a b : List String) :
    (emitAll a).seq (emitAll b) = emitAll (a ++ b) := rfl

theorem emitAll_lines (ls : List String) : (emitAll ls).lines = ls := rfl

theorem emitAll_err (ls : List String) : (emitAll ls).err = none := rfl

theorem seq_err_some {a : GenOut} (b : GenOut) {m : String} (h : a.err = some m) :
    a.seq b = a := by
  unfold GenOut.seq; rw [h]

theorem seq_err_none {a : GenOut} (b : GenOut) (h : a.err = none) :
    a.seq b = ⟨a.lines ++ b.lines, b.err⟩ := by
  unfold GenOut.seq; rw [h]

theorem char_toLower_toUpper (c : Char) : c.toUpper.toLower = c.toLower := by
  by_cases h : c.toNat ≥ 97 ∧ c.toNat ≤ 122
  · obtain ⟨h1, h2⟩ := h
    have hc : Char.ofNat c.toNat = c := Char.ofNat_toNat c
    generalize hn : c.toNat = n at h1 h2 hc
    interval_cases n <;> (rw [← hc]; decide)
  · have hu : c.toUpper = c := by
      simp only [Char.toUpper]
      rw [if_neg h]
    rw [hu]

theorem camelCaseChars_no_underscore (l : List Char) (h : '_' ∉ l) :
    camelCaseChars false l = l := by
  induction l with
  | nil => rfl
  | cons c cs ih =>
    have h1 : c ≠ '_' := fun e => h (by simp [e])
    have h2 : '_' ∉ cs := fun e => h (by simp [e])
    simp [camelCaseChars, h1, ih h2]

/-- Claim C1: for every service, the emitted dispatch registry table (the
`Methods` list of the service descriptor value) contains exactly the
entries of the methods whose clientStreaming and serverStreaming flags
are both false, in declared order, and no entry for a method with either
streaming flag set. -/
theorem claim_C1 (ms : List MethodDescriptorProto) :
    serviceDescMethodLines ms =
      (ms.filter (fun m => !m.clientStreaming && !m.serverStreaming)).map
        (fun m => quoteStr m.name ++ ",") := by
  induction ms with
  | nil => rfl
  | cons m rest ih =>
    cases h1 : m.serverStreaming <;> cases h2 : m.clientStreaming <;>
      simp [serviceDescMethodLines, h1, h2, ih]

theorem unexport_some {s : String} (h : s ≠ "") : ∃ u, unexport s = some u := by
  obtain ⟨l⟩ := s
  cases l with
  | nil => exact absurd rfl h
  | cons c cs => exact ⟨_, rfl⟩

theorem seq_lines {a : GenOut} (b : GenOut) (h : a.err = none) :
    (a.seq b).lines = a.lines ++ b.lines := by
  rw [seq_err_none b h]

theorem seq_err {a : GenOut} (b : GenOut) (h : a.err = none) :
    (a.seq b).err = b.err := by
  rw [seq_err_none b h]

theorem generateClientMethod_err (tn : String → String)
    (pkg orig full dv : String) (m : MethodDescriptorProto) (de : String)
    {u : String} (hu : unexport orig = some u) :
    (generateClientMethod tn pkg orig full dv m de).err = none := by
  simp only [generateClientMethod, hu]
  rfl

theorem clientMethodsLoop_err_none (tn : String → String)
    (pkg orig full dv : String) {u : String} (hu : unexport orig = some u)
    (ms : List MethodDescriptorProto) (idx : Nat) :
    (clientMethodsLoop tn pkg orig full dv idx ms).err = none := by
  induction ms generalizing idx with
  | nil => rfl
  | cons m rest ih =>
    simp only [clientMethodsLoop]
    rw [seq_err _ (generateClientMethod_err tn pkg orig full dv m _ hu)]
    exact ih (idx + 1)

theorem camelCase_empty : camelCase "" = "" := rfl

theorem generateService_err_of_camel_empty (tn : String → String)
    (file : FileDescriptor) (svc : ServiceDescriptorProto) (idx : Nat)
    (hn : camelCase svc.name = "") :
    (generateService tn file svc idx).err = some sliceErrMsg := by
  simp only [generateService, hn]
  rfl

theorem generateService_err (tn : String → String) (file : FileDescriptor)
    (svc : ServiceDescriptorProto) (idx : Nat) {u u' : String}
    (hu : unexport (camelCase svc.name) = some u) (hu' : unexport svc.name = some u') :
    (generateService tn file svc idx).err =
      (if file.package = "" then some "empty package" else none) := by
  simp only [generateService, hu]
  rw [seq_err _ rfl]
  rw [seq_err _ rfl]
  rw [seq_err _ (clientMethodsLoop_err_none tn file.package svc.name _ _ hu' svc.method 0)]
  rw [seq_err _ rfl]
  by_cases hp : file.package = ""
  · rw [if_pos hp]
    simp only [generateServerSetting, if_pos hp]
    rfl
  · rw [if_neg hp]
    simp only [generateServerSetting, if_neg hp]
    rfl

theorem generateService_lines (tn : String → String) (file : FileDescriptor)
    (svc : ServiceDescriptorProto) (idx : Nat) {u u' : String}
    (hu : unexport (camelCase svc.name) = some u) (hu' : unexport svc.name = some u') :
    (generateService tn file svc idx).lines =
      clientInterfaceBlock tn (camelCase svc.name) svc.method
      ++ clientStructFactoryBlock file.package (camelCase svc.name) u
      ++ (clientMethodsLoop tn file.package svc.name
            (if file.package ≠ "" then file.package ++ "@" ++ svc.name else svc.name)
            ("_" ++ camelCase svc.name ++ "_serviceDesc") 0 svc.method).lines
      ++ serverInterfaceBlock tn (camelCase svc.name) svc.method
      ++ ((generateServerSetting file).seq
          ((emitAll (registrationBlock (camelCase svc.name)
              ("_" ++ camelCase svc.name ++ "_serviceDesc"))).seq
            (emitAll (serviceDescBlock svc.name
              ("_" ++ camelCase svc.name ++ "_serviceDesc") svc.method)))).lines := by
  simp only [generateService, hu]
  rw [seq_lines _ rfl]
  rw [seq_lines _ rfl]
  rw [seq_lines _ (clientMethodsLoop_err_none tn file.package svc.name _ _ hu' svc.method 0)]
  rw [seq_lines _ rfl]
  simp only [List.append_assoc, emitAll_lines]

/-- Claim C10, counterexample: for the raw service name "foo_bar", the client
struct type name referenced by the aggregate constructor's field
initializer (`unexport` of the raw name) differs from the type name
declared during service emission (`unexport` of the CamelCase name), so
the claimed identity `unexport n = unexport (CamelCase n)` is false. -/
theorem claim_C10_counterexample :
    unexport "foo_bar" ≠ unexport (camelCase "foo_bar") := by decide

/-- Claim C10, amended: the identity `unexport n = unexport (CamelCase n)` holds
for every non-empty raw service name that contains no underscore; for
such names the aggregate's field initializer references exactly the
declared client struct type. -/
theorem claim_C10_amended (s : String) (h1 : '_' ∉ s.data) (h2 : s ≠ "") :
    unexport s = unexport (camelCase s) := by
  obtain ⟨l⟩ := s
  cases l with
  | nil => exact absurd rfl h2
  | cons c cs =>
    have hc : c ≠ '_' := fun e => h1 (by simp [e])
    have hcs : '_' ∉ cs := fun e => h1 (by simp [e])
    simp [unexport, camelCase, camelCaseChars, hc,
      camelCaseChars_no_underscore cs hcs, char_toLower_toUpper]

/-- Claim C10, amended witness at the concrete name "say". -/
theorem claim_C10_amended_witness : unexport "say" = unexport (camelCase "say") :=
  claim_C10_amended "say" (by decide) (by decide)

/-- Claim C3, counterexample: for a file with an empty package name and one
service, generation does panic with "empty package", but output text for
that file has already been emitted before the failure is raised, so the
claim's "no partial output is emitted before the failure" is false. -/
theorem claim_C3_counterexample :
    (Generate idTn emptyPkgFile).err = some "empty package" ∧
    (Generate idTn emptyPkgFile).lines ≠ [] := by
  constructor
  · decide
  · decide

/-- Claim C7: the emitted output of a file with a service contains the comment
announcing a compile-time version assertion, yet no emitted line
references the generated-code version marker (`SupportPackageIsVersion`
never occurs in the output), contradicting carno.go:46-49's own
documentation that the generated code references that constant. -/
theorem claim_C7_bug :
    "// This is a compile-time assertion to ensure that this generated file"
      ∈ (Generate idTn demoFile).lines ∧
    ((Generate idTn demoFile).lines.all
      (fun l => !containsRun "SupportPackageIsVersion".data l.data)) = true := by
  constructor
  · decide
  · decide

theorem generateService_err_cases (tn : String → String) (file : FileDescriptor)
    (svc : ServiceDescriptorProto) (idx : Nat) (hp : file.package ≠ "") :
    (generateService tn file svc idx).err = none ∨
    (generateService tn file svc idx).err = some sliceErrMsg := by
  by_cases hn : camelCase svc.name = ""
  · exact Or.inr (generateService_err_of_camel_empty tn file svc idx hn)
  · have horig : svc.name ≠ "" := fun e => hn (by rw [e]; exact camelCase_empty)
    obtain ⟨u, hu⟩ := unexport_some hn
    obtain ⟨u', hu'⟩ := unexport_some horig
    left
    rw [generateService_err tn file svc idx hu hu', if_neg hp]

theorem servicesLoop_err_slice (tn : String → String) (file : FileDescriptor)
    (hp : file.package ≠ "") (ss : List ServiceDescriptorProto) (idx : Nat)
    (h : ∃ svc ∈ ss, svc.name = "") :
    (servicesLoop tn file idx ss).err = some sliceErrMsg := by
  induction ss generalizing idx with
  | nil => simp at h
  | cons s rest ih =>
    obtain ⟨svc, hmem, hname⟩ := h
    rcases List.mem_cons.mp hmem with heq | hmem'
    · have hn : camelCase s.name = "" := by rw [← heq, hname]; exact camelCase_empty
      have hh := generateService_err_of_camel_empty tn file s idx hn
      simp only [servicesLoop]
      rw [seq_err_some _ hh]
      exact hh
    · rcases generateService_err_cases tn file s idx hp with h0 | h0
      · simp only [servicesLoop]
        rw [seq_err _ h0]
        exact ih (idx + 1) ⟨svc, hmem', hname⟩
      · simp only [servicesLoop]
        rw [seq_err_some _ h0]
        exact h0

/-- Claim C9: `unexport` is undefined (panics on the out-of-range slice) for
the empty string, and generation reaches it for every declared service:
if any service of a file has an empty name (and the package name is
non-empty, so no other panic can fire first), `Generate` fails with the
slice panic instead of producing output. -/
theorem claim_C9 (tn : String → String) (file : FileDescriptor)
    (svc : ServiceDescriptorProto) (hmem : svc ∈ file.service)
    (hname : svc.name = "") (hp : file.package ≠ "") :
    (Generate tn file).err = some sliceErrMsg := by
  have hne : file.service ≠ [] := by
    intro e
    rw [e] at hmem
    simp at hmem
  have hloop := servicesLoop_err_slice tn file hp file.service 0 ⟨svc, hmem, hname⟩
  simp only [Generate]
  rw [if_neg hne]
  rw [seq_err _ rfl]
  rw [seq_err_some _ hloop]
  exact hloop

/-- Claim C9, witness: a concrete file whose single service has an empty name
makes generation fail with the slice panic. -/
theorem claim_C9_witness : (Generate idTn emptyNameFile).err = some sliceErrMsg :=
  claim_C9 idTn emptyNameFile ⟨"", [mSay]⟩ (by decide) rfl (by decide)

/-- Claim C3, amended: for a file with at least one service and an empty
package name (whose first service has a non-empty CamelCase name, so no
slice panic preempts), generation fails with the "empty package" panic,
but partial output text (the header lines and the first service's
client and server text) has already been emitted when the failure is
raised. -/
theorem claim_C3_amended (tn : String → String) (file : FileDescriptor)
    (svc : ServiceDescriptorProto) (rest : List ServiceDescriptorProto)
    (hs : file.service = svc :: rest) (hp : file.package = "")
    (hn : camelCase svc.name ≠ "") :
    (Generate tn file).err = some "empty package" ∧ (Generate tn file).lines ≠ [] := by
  have hne : file.service ≠ [] := by rw [hs]; simp
  have horig : svc.name ≠ "" := fun e => hn (by rw [e]; exact camelCase_empty)
  obtain ⟨u, hu⟩ := unexport_some hn
  obtain ⟨u', hu'⟩ := unexport_some horig
  have hgs : (generateService tn file svc 0).err = some "empty package" := by
    rw [generateService_err tn file svc 0 hu hu', if_pos hp]
  have hloop : servicesLoop tn file 0 file.service = generateService tn file svc 0 := by
    rw [hs]
    simp only [servicesLoop]
    exact seq_err_some _ hgs
  constructor
  · simp only [Generate]
    rw [if_neg hne]
    rw [seq_err _ rfl]
    rw [hloop]
    rw [seq_err_some _ hgs]
    exact hgs
  · simp only [Generate]
    rw [if_neg hne]
    rw [seq_lines _ rfl]
    simp [emitAll_lines]

/-- Claim C3, amended witness at a concrete empty-package file. -/
theorem claim_C3_amended_witness :
    (Generate idTn emptyPkgFile2).err = some "empty package" ∧
    (Generate idTn emptyPkgFile2).lines ≠ [] :=
  claim_C3_amended idTn emptyPkgFile2 userService [] rfl rfl (by decide)

/-- Claim C5: the emitted client interface has one method signature per
MethodDescriptor in declared order; a unary method has signature
`(ctx context.Context, in *Input, opts ...options.Option) (*Output, error)`;
a method with either streaming flag set instead returns the stream-handle
type `<Service>_<Method>Client`; and if clientStreaming is set the
request parameter is omitted from the signature. -/
theorem claim_C5 (tn : String → String) (file : FileDescriptor)
    (svc : ServiceDescriptorProto) (idx : Nat) :
    (∃ rest,
      (generateService tn file svc idx).lines =
        ["", "// Client API for " ++ camelCase svc.name ++ " service",
          "type " ++ camelCase svc.name ++ "Client interface \x7b"]
        ++ svc.method.map (generateClientSignature tn (camelCase svc.name))
        ++ ["\x7d", ""] ++ rest) ∧
    (∀ (servName : String) (m : MethodDescriptorProto),
      (m.clientStreaming = false → m.serverStreaming = false →
        generateClientSignature tn servName m =
          camelCase m.name ++ "(ctx context.Context" ++ ", in *" ++ tn m.inputType ++
            ", opts ...options.Option) (" ++ "*" ++ tn m.outputType ++ ", error)") ∧
      (m.serverStreaming = true → m.clientStreaming = false →
        generateClientSignature tn servName m =
          camelCase m.name ++ "(ctx context.Context" ++ ", in *" ++ tn m.inputType ++
            ", opts ...options.Option) (" ++ (servName ++ "_" ++ camelCase m.name ++
            "Client") ++ ", error)") ∧
      (m.clientStreaming = true →
        generateClientSignature tn servName m =
          camelCase m.name ++ "(ctx context.Context" ++
            ", opts ...options.Option) (" ++ (servName ++ "_" ++ camelCase m.name ++
            "Client") ++ ", error)")) := by
  constructor
  · refine ⟨?_, ?_⟩
    · exact ((match unexport (camelCase svc.name) with
        | none => failGen sliceErrMsg
        | some u =>
          emitAll (clientStructFactoryBlock file.package (camelCase svc.name) u)).seq
        ((clientMethodsLoop tn file.package svc.name
            (if file.package ≠ "" then file.package ++ "@" ++ svc.name else svc.name)
            ("_" ++ camelCase svc.name ++ "_serviceDesc") 0 svc.method).seq
        ((emitAll (serverInterfaceBlock tn (camelCase svc.name) svc.method)).seq
        ((generateServerSetting file).seq
        ((emitAll (registrationBlock (camelCase svc.name)
            ("_" ++ camelCase svc.name ++ "_serviceDesc"))).seq
        (emitAll (serviceDescBlock svc.name
            ("_" ++ camelCase svc.name ++ "_serviceDesc") svc.method))))))).lines
    · simp only [generateService]
      rw [seq_lines _ rfl]
      simp only [clientInterfaceBlock, emitAll_lines, List.append_assoc]
  · intro servName m
    refine ⟨?_, ?_, ?_⟩
    · intro h1 h2
      simp only [generateClientSignature, reservedClientName, List.contains_nil,
        Bool.false_eq_true, if_false, h1, h2, Bool.or_self, String.append_assoc]
    · intro h1 h2
      simp only [generateClientSignature, reservedClientName, List.contains_nil,
        Bool.false_eq_true, if_false, if_true, h1, h2, Bool.or_false, Bool.true_or,
        String.append_assoc]
    · intro h1
      simp only [generateClientSignature, reservedClientName, List.contains_nil,
        Bool.false_eq_true, if_false, if_true, h1, Bool.or_true,
        String.append_empty, String.append_assoc]

/-- Claim C5, witness: concrete signatures for the unary method `Say` and the
client-streaming method `Push` of service `Echo`. -/
theorem claim_C5_witness :
    generateClientSignature idTn "Echo" mSay =
      camelCase mSay.name ++ "(ctx context.Context" ++ ", in *" ++ idTn mSay.inputType ++
        ", opts ...options.Option) (" ++ "*" ++ idTn mSay.outputType ++ ", error)" ∧
    generateClientSignature idTn "Echo" mPush =
      camelCase mPush.name ++ "(ctx context.Context" ++
        ", opts ...options.Option) (" ++ ("Echo" ++ "_" ++ camelCase mPush.name ++
        "Client") ++ ", error)" :=
  ⟨((claim_C5 idTn demoFile echoService 0).2 "Echo" mSay).1 rfl rfl,
   ((claim_C5 idTn demoFile echoService 0).2 "Echo" mPush).2.2 rfl⟩

theorem intercalate_pair (s a b : String) : String.intercalate s [a, b] = a ++ s ++ b := rfl

/-- Claim C6, counterexample: for the client-streaming method `Push` of service
`Echo`, the emitted server signature keeps the request parameter
(`*In` occurs) and does not return the stream-handle type
(`Echo_PushClient` does not occur), while the client signature omits the
request and returns the handle — so the server signature does not mirror
the client shape for streaming methods. -/
theorem claim_C6_counterexample :
    generateServerSignature idTn "Echo" mPush = "Push(context.Context, *In) (*Out, error)" ∧
    containsRun ", *In".data (generateServerSignature idTn "Echo" mPush).data = true ∧
    containsRun "Echo_PushClient".data (generateServerSignature idTn "Echo" mPush).data
      = false ∧
    containsRun "Echo_PushClient".data (generateClientSignature idTn "Echo" mPush).data
      = true ∧
    containsRun ", in *In".data (generateClientSignature idTn "Echo" mPush).data = false := by
  refine ⟨by decide, by decide, by decide, by decide, by decide⟩

/-- Claim C6, amended: the emitted server contract interface contains one
method signature per MethodDescriptor in declared order, but every
signature has the uniform unary shape
`Name(context.Context, *Input) (*Output, error)` regardless of the
streaming flags; it mirrors the client shape only for unary methods
(the stream-handle return and the omitted request parameter are not
mirrored). -/
theorem claim_C6_amended (tn : String → String) (file : FileDescriptor)
    (svc : ServiceDescriptorProto) (idx : Nat) (hn : camelCase svc.name ≠ "") :
    (∃ pre rest,
      (generateService tn file svc idx).lines =
        pre ++ (("type " ++ camelCase svc.name ++ "Server interface \x7b")
          :: svc.method.map (generateServerSignature tn (camelCase svc.name))
          ++ ["\x7d", ""]) ++ rest) ∧
    (∀ (servName : String) (m : MethodDescriptorProto),
      generateServerSignature tn servName m =
        camelCase m.name ++ "(" ++ "context.Context" ++ ", " ++ "*" ++ tn m.inputType ++
          ") " ++ "(*" ++ tn m.outputType ++ ", error)") := by
  have horig : svc.name ≠ "" := fun e => hn (by rw [e]; exact camelCase_empty)
  obtain ⟨u, hu⟩ := unexport_some hn
  obtain ⟨u', hu'⟩ := unexport_some horig
  constructor
  · refine ⟨clientInterfaceBlock tn (camelCase svc.name) svc.method
      ++ clientStructFactoryBlock file.package (camelCase svc.name) u
      ++ (clientMethodsLoop tn file.package svc.name
          (if file.package ≠ "" then file.package ++ "@" ++ svc.name else svc.name)
          ("_" ++ camelCase svc.name ++ "_serviceDesc") 0 svc.method).lines
      ++ ["// Server API for " ++ camelCase svc.name ++ " service"],
      ((generateServerSetting file).seq
        ((emitAll (registrationBlock (camelCase svc.name)
            ("_" ++ camelCase svc.name ++ "_serviceDesc"))).seq
          (emitAll (serviceDescBlock svc.name
            ("_" ++ camelCase svc.name ++ "_serviceDesc") svc.method)))).lines, ?_⟩
    rw [generateService_lines tn file svc idx hu hu']
    simp only [serverInterfaceBlock, List.append_assoc, List.cons_append,
      List.nil_append]
  · intro servName m
    simp only [generateServerSignature, reservedClientName, List.contains_nil,
      Bool.false_eq_true, if_false, intercalate_pair, String.append_assoc]

/-- Claim C6, amended witness: the server signature of the streaming method
`Push` has the same unary shape as any other method. -/
theorem claim_C6_amended_witness :
    generateServerSignature idTn "Echo" mPush =
      camelCase mPush.name ++ "(" ++ "context.Context" ++ ", " ++ "*" ++
        idTn mPush.inputType ++ ") " ++ "(*" ++ idTn mPush.outputType ++ ", error)" :=
  (claim_C6_amended idTn demoFile echoService 0 (by decide)).2 "Echo" mPush

theorem invoke_line_mem_loop (tn : String → String) (pkg orig full dv : String)
    {u : String} (hu : unexport orig = some u) (ms : List MethodDescriptorProto)
    (m : MethodDescriptorProto) (hm : m ∈ ms) (idx : Nat) :
    ("resp, err := c.Client.Invoke(ctx, " ++ quoteStr orig ++ ", " ++
      quoteStr m.name ++ ", opts, inBytes)")
      ∈ (clientMethodsLoop tn pkg orig full dv idx ms).lines := by
  induction ms generalizing idx with
  | nil => simp at hm
  | cons m0 rest ih =>
    simp only [clientMethodsLoop]
    rw [seq_lines _ (generateClientMethod_err tn pkg orig full dv m0 _ hu)]
    rcases List.mem_cons.mp hm with heq | hm'
    · subst heq
      apply List.mem_append_left
      simp [generateClientMethod, hu, emitAll_lines]
    · exact List.mem_append_right _ (ih hm' (idx + 1))

/-- Claim C4: the client method body emitted for a method invokes the shared
connection with the service's raw name and the method's raw name (the
`c.Client.Invoke(ctx, "<service>", "<method>", ...)` line occurs in the
service's output), and the body's control flow returns any failure of
the invoke step to the caller unchanged — no wrapping — while on the
success path the decoded response is returned with no further check. -/
theorem claim_C4 (tn : String → String) (file : FileDescriptor)
    (svc : ServiceDescriptorProto) (idx : Nat) (m : MethodDescriptorProto)
    (hm : m ∈ svc.method) (hn : camelCase svc.name ≠ "") :
    (("resp, err := c.Client.Invoke(ctx, " ++ quoteStr svc.name ++ ", " ++
        quoteStr m.name ++ ", opts, inBytes)")
      ∈ (generateService tn file svc idx).lines) ∧
    (∀ (E B Out : Type) (mar : Except E B) (inv : B → Except E B)
        (unm : B → Except E Out) (b : B) (e : E),
      mar = Except.ok b → inv b = Except.error e →
      clientBodySem E B Out mar inv unm = Except.error e) ∧
    (∀ (E B Out : Type) (mar : Except E B) (inv : B → Except E B)
        (unm : B → Except E Out) (b r : B) (o : Out),
      mar = Except.ok b → inv b = Except.ok r → unm r = Except.ok o →
      clientBodySem E B Out mar inv unm = Except.ok o) := by
  have horig : svc.name ≠ "" := fun e => hn (by rw [e]; exact camelCase_empty)
  obtain ⟨u, hu⟩ := unexport_some hn
  obtain ⟨u', hu'⟩ := unexport_some horig
  refine ⟨?_, ?_, ?_⟩
  · rw [generateService_lines tn file svc idx hu hu']
    have hmem := invoke_line_mem_loop tn file.package svc.name
      (if file.package ≠ "" then file.package ++ "@" ++ svc.name else svc.name)
      ("_" ++ camelCase svc.name ++ "_serviceDesc") hu' svc.method m hm 0
    simp only [List.mem_append]
    tauto
  · intro E B Out mar inv unm b e h1 h2
    simp only [clientBodySem, h1, h2]
  · intro E B Out mar inv unm b r o h1 h2 h3
    simp only [clientBodySem, h1, h2, h3]

/-- Claim C4, witness: the invoke line with the raw names "Echo" and "Say"
occurs in the concrete service output, and an invoke failure is returned
unchanged by the body semantics. -/
theorem claim_C4_witness :
    (("resp, err := c.Client.Invoke(ctx, " ++ quoteStr echoService.name ++ ", " ++
        quoteStr mSay.name ++ ", opts, inBytes)")
      ∈ (generateService idTn demoFile echoService 0).lines) ∧
    clientBodySem String String String (Except.ok "b")
      (fun _ => Except.error "boom") (fun r => Except.ok r) = Except.error "boom" :=
  ⟨(claim_C4 idTn demoFile echoService 0 mSay (by decide) (by decide)).1,
   (claim_C4 idTn demoFile echoService 0 mSay (by decide) (by decide)).2.1
     String String String (Except.ok "b") (fun _ => Except.error "boom")
     (fun r => Except.ok r) "b" "boom" rfl rfl⟩

/-- Claim C8: generation output is a function of the input descriptors alone:
for a fixed type-name resolver, two files agreeing on package name and
service list produce identical output, whatever their other descriptor
contents (file name, message declarations); hence two runs over the
identical input produce byte-identical output. -/
theorem claim_C8 (tn : String → String) (f1 f2 : FileDescriptor)
    (hp : f1.package = f2.package) (hs : f1.service = f2.service) :
    Generate tn f1 = Generate tn f2 ∧ GenerateImports f1 = GenerateImports f2 := by
  have hsvc : ∀ (svc : ServiceDescriptorProto) (idx : Nat),
      generateService tn f1 svc idx = generateService tn f2 svc idx := by
    intro svc idx
    simp only [generateService, generateServerSetting, hp]
  have hloop : ∀ (ss : List ServiceDescriptorProto) (idx : Nat),
      servicesLoop tn f1 idx ss = servicesLoop tn f2 idx ss := by
    intro ss
    induction ss with
    | nil => intro idx; rfl
    | cons s r ih => intro idx; simp only [servicesLoop, hsvc, ih]
  constructor
  · simp only [Generate, hp, hs, hloop]
  · simp only [GenerateImports, hs]

/-- Claim C8, witness: two concrete files differing only in the unread
descriptor fields generate identical output. -/
theorem claim_C8_witness :
    Generate idTn demoFile = Generate idTn demoFileAlt ∧
    GenerateImports demoFile = GenerateImports demoFileAlt :=
  claim_C8 idTn demoFile demoFileAlt rfl rfl

/-- Claim C2, counterexample: a run over two files that declare services in the
same package `demo` emits the aggregate struct `type Demo struct{` once
per file — twice in the run, not exactly once — and neither aggregate
contains the union of services: the first file's output has no
`UserClient` field line and the second file's output has no `EchoClient`
field line; there is no one-shot gate. -/
theorem claim_C2_counterexample :
    GenerateRun idTn [demoFile, demoFile2] = [Generate idTn demoFile, Generate idTn demoFile2] ∧
    (Generate idTn demoFile).lines.count "type Demo struct\x7b" = 1 ∧
    (Generate idTn demoFile2).lines.count "type Demo struct\x7b" = 1 ∧
    "UserClient" ∉ (Generate idTn demoFile).lines ∧
    "EchoClient" ∉ (Generate idTn demoFile2).lines := by
  refine ⟨rfl, by decide, by decide, by decide, by decide⟩

/-- Claim C2, amended: aggregate emission happens once per input file, not once
per package: for every package and service list the aggregate struct
contains one field line per service of that list in declared order, and
for every file with services whose generation succeeds, the file's
output ends with the aggregate emitted for that file's package and that
file's own service list (after all of that file's services). -/
theorem claim_C2_amended :
    (∀ (pkg : String) (svcs : List ServiceDescriptorProto),
      ∃ rest, (generateServerPackage pkg svcs).lines =
        ("type " ++ camelCasePkg pkg ++ " struct\x7b")
          :: svcs.map (fun s => camelCase s.name ++ "Client") ++ ["\x7d", ""] ++ rest) ∧
    (∀ (tn : String → String) (file : FileDescriptor),
      file.service ≠ [] → (Generate tn file).err = none →
      ∃ pre, (Generate tn file).lines =
        pre ++ (generateServerPackage file.package file.service).lines) := by
  constructor
  · intro pkg svcs
    refine ⟨[
        "func New" ++ camelCasePkg pkg ++ "(opts *options.Options) (*" ++
          camelCasePkg pkg ++ ",error)\x7b",
        "c, err := client.NewClient(opts," ++ quoteStr pkg ++ ")",
        "if err!=nil\x7b",
        "return nil,err",
        "\x7d",
        "return &" ++ camelCasePkg pkg ++ "\x7b"]
      ++ ((constructorFieldLines svcs).seq (emitAll ["\x7d,nil", "\x7d", ""])).lines, ?_⟩
    simp only [generateServerPackage]
    rw [seq_lines _ rfl]
    simp only [aggregateHeadBlock, emitAll_lines, List.append_assoc, List.cons_append,
      List.nil_append]
  · intro tn file hne herr
    have hform : Generate tn file =
        (emitAll ["// Reference imports to suppress errors if they are not otherwise used.",
          "",
          "// This is a compile-time assertion to ensure that this generated file",
          "// is compatible with the carno package it is being compiled against.",
          "",
          "const ServerName=" ++ quoteStr file.package]).seq
        ((servicesLoop tn file 0 file.service).seq
          (generateServerPackage file.package file.service)) := by
      simp only [Generate]
      rw [if_neg hne]
    rw [hform] at herr ⊢
    rw [seq_err _ rfl] at herr
    have hL : (servicesLoop tn file 0 file.service).err = none := by
      cases hL0 : (servicesLoop tn file 0 file.service).err with
      | none => rfl
      | some msg =>
        rw [seq_err_some _ hL0] at herr
        rw [hL0] at herr
        exact absurd herr (by simp)
    refine ⟨["// Reference imports to suppress errors if they are not otherwise used.",
        "",
        "// This is a compile-time assertion to ensure that this generated file",
        "// is compatible with the carno package it is being compiled against.",
        "",
        "const ServerName=" ++ quoteStr file.package]
      ++ (servicesLoop tn file 0 file.service).lines, ?_⟩
    rw [seq_lines _ rfl]
    rw [seq_lines _ hL]
    simp only [emitAll_lines, List.append_assoc]

/-- Claim C2, amended witness: the concrete file `demoFile` ends with its own
aggregate. -/
theorem claim_C2_amended_witness :
    ∃ pre, (Generate idTn demoFile).lines =
      pre ++ (generateServerPackage demoFile.package demoFile.service).lines :=
  claim_C2_amended.2 idTn demoFile (by decide) (by decide)

end Carno
